import Mathlib

/-!
# Verification of `pubkey_2.py` (SSH RSA public-key component extraction)

Shallow embedding of `src/pubkey_2.py`. Python byte buffers (`bytes`) are
modelled as `List Nat` (entries are byte values), Python strings as
`List Char`, and exceptions as `Except PyError`.

Each raise site of the Python source gets its own `PyError` constructor,
carrying the data interpolated into the Python error message:
* `ValueError("Invalid SSH public key format")`    → `.malformedKeyLine`
* `ValueError(f"Expected ssh-rsa key type, got {key_type}")`
  → `.unsupportedKeyType key_type`
* `ValueError` / `binascii.Error` out of `base64.b64decode`  → `.base64Error k`
* `ValueError(f"Cannot read length at offset {offset}")`  → `.truncLength offset`
* `ValueError(f"Cannot read {length} bytes at offset {offset}")`
  → `.truncPayload length offset`
* `UnicodeDecodeError` propagating out of `bytes.decode()` → `.unicodeDecodeError`
* `ValueError(f"Invalid key type in data: {...}")` → `.blobTypeMismatch got`
-/

/-- Kinds of error that can propagate out of `base64.b64decode(s)` on a
`str` argument: `nonAscii` for the
`ValueError("string argument should contain only ASCII characters")`
raised by `_bytes_from_decode_data` when the string holds a character
above U+007F, and the two `binascii.Error` kinds of `binascii.a2b_base64`
in non-strict mode (the mode of the default `validate=False`): `oddData`
for "number of data characters cannot be 1 more than a multiple of 4",
`incorrectPadding` for "Incorrect padding". -/
inductive B64Error : Type where
  | nonAscii : B64Error
  | oddData : B64Error
  | incorrectPadding : B64Error
deriving DecidableEq, Repr

/-- The errors the Python functions can raise, one constructor per raise
site (see module docstring). -/
inductive PyError : Type where
  | malformedKeyLine : PyError
  | unsupportedKeyType : List Char → PyError
  | base64Error : B64Error → PyError
  | truncLength : Nat → PyError
  | truncPayload : Nat → Nat → PyError
  | unicodeDecodeError : PyError
  | blobTypeMismatch : List Char → PyError
deriving DecidableEq, Repr

instance {ε α : Type} [DecidableEq ε] [DecidableEq α] : DecidableEq (Except ε α) :=
  fun x y =>
    match x, y with
    | .ok a, .ok b => decidable_of_iff (a = b) (by simp)
    | .error a, .error b => decidable_of_iff (a = b) (by simp)
    | .ok _, .error _ => isFalse (fun h => Except.noConfusion h)
    | .error _, .ok _ => isFalse (fun h => Except.noConfusion h)

/-- Python slice `data[a:b]` for `a ≤ b` (within bounds in all our uses). -/
def sliceList (data : List Nat) (a b : Nat) : List Nat :=
  (data.drop a).take (b - a)

/-- Model of `struct.unpack('>I', bs)[0]`: big-endian unsigned
interpretation of a 4-byte buffer (and, as used below, of any byte
list). -/
def beU32 (bs : List Nat) : Nat :=
  bs.foldl (fun acc b => acc * 256 + b) 0

/-- Model of `int.from_bytes(bs, 'big')`: unsigned big-endian integer
from bytes; the empty byte string gives `0`. -/
def intFromBytesBE (bs : List Nat) : Nat :=
  bs.foldl (fun acc b => acc * 256 + b) 0

/-- The nested helper `read_ssh_string(data, offset)` of `pubkey_2.py`
(lines 96–107 in `extract_rsa_components_from_string`): read a
length-prefixed string from SSH key data.  Raises
`ValueError(f"Cannot read length at offset {offset}")` when the 4-byte
length prefix is out of bounds, and
`ValueError(f"Cannot read {length} bytes at offset {offset}")` (with the
already-advanced offset) when the payload is out of bounds. -/
def read_ssh_string (data : List Nat) (offset : Nat) :
    Except PyError (List Nat × Nat) :=
  if offset + 4 > data.length then
    .error (.truncLength offset)
  else
    let length := beU32 (sliceList data offset (offset + 4))
    if offset + 4 + length > data.length then
      .error (.truncPayload length (offset + 4))
    else
      .ok (sliceList data (offset + 4) (offset + 4 + length), offset + 4 + length)

/-- Is `b` a UTF-8 continuation byte (`0x80 ≤ b < 0xC0`)? -/
def isUtf8Cont (b : Nat) : Bool :=
  128 ≤ b && b < 192

/-- Strict UTF-8 decoding of a byte list, as Python's `bytes.decode()`
(default `'utf-8'`, `errors='strict'`): rejects stray continuation bytes,
truncated sequences, overlong encodings, surrogates and code points
above `0x10FFFF`; returns `none` exactly when Python raises
`UnicodeDecodeError`. -/
def utf8Decode : List Nat → Option (List Char)
  | [] => some []
  | b :: rest =>
    if b < 128 then
      (utf8Decode rest).map (fun cs => Char.ofNat b :: cs)
    else if b < 192 then
      none
    else if b < 224 then
      match rest with
      | c1 :: rest2 =>
        if isUtf8Cont c1 then
          let code := (b - 192) * 64 + (c1 - 128)
          if 128 ≤ code then
            (utf8Decode rest2).map (fun cs => Char.ofNat code :: cs)
          else none
        else none
      | [] => none
    else if b < 240 then
      match rest with
      | c1 :: c2 :: rest2 =>
        if isUtf8Cont c1 && isUtf8Cont c2 then
          let code := (b - 224) * 4096 + (c1 - 128) * 64 + (c2 - 128)
          if 2048 ≤ code && ¬ (55296 ≤ code && code ≤ 57343) then
            (utf8Decode rest2).map (fun cs => Char.ofNat code :: cs)
          else none
        else none
      | _ => none
    else if b < 248 then
      match rest with
      | c1 :: c2 :: c3 :: rest2 =>
        if isUtf8Cont c1 && isUtf8Cont c2 && isUtf8Cont c3 then
          let code := (b - 240) * 262144 + (c1 - 128) * 4096 +
            (c2 - 128) * 64 + (c3 - 128)
          if 65536 ≤ code && code ≤ 1114111 then
            (utf8Decode rest2).map (fun cs => Char.ofNat code :: cs)
          else none
        else none
      | _ => none
    else none

/-- 6-bit value of a base64 alphabet character (`table_a2b_base64`);
`none` for characters outside the standard alphabet. -/
def b64Val (c : Char) : Option Nat :=
  if 'A' ≤ c && c ≤ 'Z' then some (c.toNat - 65)
  else if 'a' ≤ c && c ≤ 'z' then some (c.toNat - 97 + 26)
  else if '0' ≤ c && c ≤ '9' then some (c.toNat - 48 + 52)
  else if c = '+' then some 62
  else if c = '/' then some 63
  else none

/-- The decoding loop of CPython's `binascii.a2b_base64` in non-strict
mode (the mode used by `base64.b64decode(s)`): characters outside the
base64 alphabet are skipped; `'='` padding terminates decoding once a
quad at position ≥ 2 accumulates enough pads; at end of input, a quad
position of 1 raises the "1 more than a multiple of 4" error and
positions 2–3 raise "Incorrect padding".  Arguments: input, quad
position (0–3), pending bits `leftchar`, consecutive pad count, output
accumulator (reversed). -/
def b64Loop : List Char → Nat → Nat → Nat → List Nat → Except B64Error (List Nat)
  | [], quadPos, _, _, acc =>
    if quadPos = 0 then .ok acc.reverse
    else if quadPos = 1 then .error .oddData
    else .error .incorrectPadding
  | c :: rest, quadPos, leftchar, pads, acc =>
    if c = '=' then
      if 2 ≤ quadPos then
        if 4 ≤ quadPos + (pads + 1) then .ok acc.reverse
        else b64Loop rest quadPos leftchar (pads + 1) acc
      else b64Loop rest quadPos leftchar pads acc
    else
      match b64Val c with
      | none => b64Loop rest quadPos leftchar pads acc
      | some v =>
        match quadPos with
        | 0 => b64Loop rest 1 v 0 acc
        | 1 => b64Loop rest 2 (v % 16) 0 ((leftchar * 4 + v / 16) :: acc)
        | 2 => b64Loop rest 3 (v % 4) 0 ((leftchar * 16 + v / 4) :: acc)
        | _ => b64Loop rest 0 0 0 ((leftchar * 64 + v) :: acc)

/-- Model of `base64.b64decode(s)` on a `str` with default
`validate=False`: first `_bytes_from_decode_data` encodes the string as
ASCII, raising `ValueError` if any character is above U+007F, then the
non-strict `a2b_base64` loop decodes the bytes. -/
def b64decode (s : List Char) : Except B64Error (List Nat) :=
  if s.all (fun c => c.toNat < 128) then b64Loop s 0 0 0 []
  else .error .nonAscii

/-- Model of CPython's `Py_UNICODE_ISSPACE`, the character test behind
`str.isspace()`, `str.strip()` and `str.split()`: U+0009–U+000D, the
ASCII separators U+001C–U+001F, the space U+0020, U+0085, U+00A0,
U+1680, U+2000–U+200A, U+2028, U+2029, U+202F, U+205F and U+3000. -/
def pyIsSpace (c : Char) : Bool :=
  (9 ≤ c.toNat && c.toNat ≤ 13) || (28 ≤ c.toNat && c.toNat ≤ 32) ||
    c.toNat = 133 || c.toNat = 160 || c.toNat = 5760 ||
    (8192 ≤ c.toNat && c.toNat ≤ 8202) || c.toNat = 8232 || c.toNat = 8233 ||
    c.toNat = 8239 || c.toNat = 8287 || c.toNat = 12288

/-- Model of `str.strip()`: remove leading and trailing whitespace. -/
def pyStrip (s : List Char) : List Char :=
  ((s.dropWhile pyIsSpace).reverse.dropWhile pyIsSpace).reverse

/-- Accumulator loop for `str.split()` (no arguments): split on runs of
whitespace, producing no empty tokens. -/
def pySplitAux : List Char → List Char → List (List Char)
  | [], cur => if cur.isEmpty then [] else [cur.reverse]
  | c :: rest, cur =>
    if pyIsSpace c then
      if cur.isEmpty then pySplitAux rest []
      else cur.reverse :: pySplitAux rest []
    else pySplitAux rest (c :: cur)

/-- Model of `str.split()` with no arguments. -/
def pySplit (s : List Char) : List (List Char) :=
  pySplitAux s []

/-- The characters of `"ssh-rsa"`. -/
def sshRsaStr : List Char := ['s', 's', 'h', '-', 'r', 's', 'a']

/-- The ASCII bytes of `"ssh-rsa"`. -/
def sshRsaBytes : List Nat := [115, 115, 104, 45, 114, 115, 97]

/-- The blob-decoding stage of `extract_rsa_components_from_string`
(lines 93–124 of `pubkey_2.py`): starting from `offset = 0` on the
base64-decoded `key_data`, read the key-type field and check that it
decodes (UTF-8) to `"ssh-rsa"`, then read the exponent and modulus
fields at the chained offsets, and convert both payloads to unsigned
big-endian integers. -/
def decodeBlob (key_data : List Nat) : Except PyError (Nat × Nat) :=
  match read_ssh_string key_data 0 with
  | .error err => .error err
  | .ok (key_type_bytes, offset) =>
    match utf8Decode key_type_bytes with
    | none => .error .unicodeDecodeError
    | some s =>
      if s ≠ sshRsaStr then .error (.blobTypeMismatch s)
      else
        match read_ssh_string key_data offset with
        | .error err => .error err
        | .ok (e_bytes, offset2) =>
          match read_ssh_string key_data offset2 with
          | .error err => .error err
          | .ok (n_bytes, _) =>
            .ok (intFromBytesBE e_bytes, intFromBytesBE n_bytes)

/-- Model of `extract_rsa_components_from_string(public_key_string)` (lines
69–124 of `pubkey_2.py`): strip the input, split on whitespace, require
at least two tokens, require the first token to be exactly `"ssh-rsa"`,
base64-decode the second token and run the blob-decoding stage on it. -/
def extract_rsa_components_from_string (public_key_string : List Char) :
    Except PyError (Nat × Nat) :=
  let content := pyStrip public_key_string
  let parts := pySplit content
  if parts.length < 2 then .error .malformedKeyLine
  else
    let key_type := parts.getD 0 []
    if key_type ≠ sshRsaStr then .error (.unsupportedKeyType key_type)
    else
      match b64decode (parts.getD 1 []) with
      | .error k => .error (.base64Error k)
      | .ok key_data => decodeBlob key_data

/-- Duplicate of `read_ssh_string` as nested in
`extract_rsa_components_manual` (lines 38–49 of `pubkey_2.py`); the
Python source textually duplicates the helper inside each entry point. -/
def read_ssh_string_manual (data : List Nat) (offset : Nat) :
    Except PyError (List Nat × Nat) :=
  if offset + 4 > data.length then
    .error (.truncLength offset)
  else
    let length := beU32 (sliceList data offset (offset + 4))
    if offset + 4 + length > data.length then
      .error (.truncPayload length (offset + 4))
    else
      .ok (sliceList data (offset + 4) (offset + 4 + length), offset + 4 + length)

/-- The blob-decoding stage of `extract_rsa_components_manual` (lines
35–66 of `pubkey_2.py`), a textual duplicate of the one in
`extract_rsa_components_from_string`. -/
def decodeBlobManual (key_data : List Nat) : Except PyError (Nat × Nat) :=
  match read_ssh_string_manual key_data 0 with
  | .error err => .error err
  | .ok (key_type_bytes, offset) =>
    match utf8Decode key_type_bytes with
    | none => .error .unicodeDecodeError
    | some s =>
      if s ≠ sshRsaStr then .error (.blobTypeMismatch s)
      else
        match read_ssh_string_manual key_data offset with
        | .error err => .error err
        | .ok (e_bytes, offset2) =>
          match read_ssh_string_manual key_data offset2 with
          | .error err => .error err
          | .ok (n_bytes, _) =>
            .ok (intFromBytesBE e_bytes, intFromBytesBE n_bytes)

/-- Model of `extract_rsa_components_manual(public_key_file)` (lines 10–66 of
`pubkey_2.py`), modelled past its one side effect: the
`open(...).read()` that produced the file's text is represented by
passing that text in as `file_content`; everything after the read is a
textual duplicate of `extract_rsa_components_from_string`. -/
def extract_rsa_components_manual (file_content : List Char) :
    Except PyError (Nat × Nat) :=
  let content := pyStrip file_content
  let parts := pySplit content
  if parts.length < 2 then .error .malformedKeyLine
  else
    let key_type := parts.getD 0 []
    if key_type ≠ sshRsaStr then .error (.unsupportedKeyType key_type)
    else
      match b64decode (parts.getD 1 []) with
      | .error k => .error (.base64Error k)
      | .ok key_data => decodeBlobManual key_data

/-- Minimal big-endian byte encoding of a natural number: the empty list
for `0`, otherwise the base-256 digits with no leading zero (what
`e.to_bytes((e.bit_length() + 7) // 8, 'big')` produces). -/
def minBE (x : Nat) : List Nat :=
  if x = 0 then []
  else minBE (x / 256) ++ [x % 256]
decreasing_by exact Nat.div_lt_self (Nat.pos_of_ne_zero (by assumption)) (by norm_num)

/-- The 4-byte big-endian encoding of a length `L < 2^32`. -/
def be4 (L : Nat) : List Nat :=
  [L / 16777216 % 256, L / 65536 % 256, L / 256 % 256, L % 256]

/-- Build the SSH RSA wire blob for a pair `(e, n)`: three
length-prefixed fields — the bytes `"ssh-rsa"`, the minimal big-endian
encoding of `e`, the minimal big-endian encoding of `n` — each preceded
by its 4-byte big-endian length.  The 4-byte prefix represents the
payload length faithfully only when that length is below `2^32`, which
the round-trip theorem assumes. -/
def buildBlob (e n : Nat) : List Nat :=
  be4 sshRsaBytes.length ++ sshRsaBytes ++
    be4 (minBE e).length ++ minBE e ++ be4 (minBE n).length ++ minBE n

/-- Does a result carry the invalid-base64 error (a `binascii.Error` from
`base64.b64decode`)? -/
def isBase64Err : Except PyError (Nat × Nat) → Bool
  | .error (.base64Error _) => true
  | _ => false

/-- Does a result carry the blob-type-mismatch error
(`ValueError("Invalid key type in data: ...")`)? -/
def isTypeMismatch : Except PyError (Nat × Nat) → Bool
  | .error (.blobTypeMismatch _) => true
  | _ => false


/-! ## Helper lemmas about slices and byte conversions -/

theorem sliceList_length (data : List Nat) (a b : Nat) (h : b ≤ data.length) :
    (sliceList data a b).length = b - a := by
  simp only [sliceList, List.length_take, List.length_drop]
  omega

theorem sliceList_getD (data : List Nat) (a b i : Nat) (h2 : a + i < b)
    (h1 : b ≤ data.length) :
    (sliceList data a b).getD i 0 = data.getD (a + i) 0 := by
  have hl : (sliceList data a b).length = b - a := sliceList_length data a b h1
  have hi : i < (sliceList data a b).length := by omega
  have hai : a + i < data.length := by omega
  rw [List.getD_eq_getElem _ _ hi, List.getD_eq_getElem _ _ hai]
  simp [sliceList]

theorem sliceList_append_left (data extra : List Nat) (a b : Nat)
    (h : b ≤ data.length) :
    sliceList (data ++ extra) a b = sliceList data a b := by
  unfold sliceList
  rw [List.drop_append_eq_append_drop, List.take_append_eq_append_take]
  have h1 : b - a - (data.drop a).length = 0 := by
    simp only [List.length_drop]
    omega
  simp [h1]
  omega

theorem sliceList_eq_map (data : List Nat) (a b : Nat) (h : b ≤ data.length) :
    sliceList data a b = (List.range (b - a)).map (fun i => data.getD (a + i) 0) := by
  apply List.ext_getElem
  · simp [sliceList_length data a b h]
  · intro i hi1 hi2
    have hib : i < b - a := by
      have := sliceList_length data a b h
      omega
    have hD := sliceList_getD data a b i (by omega) h
    rw [List.getD_eq_getElem _ _ hi1,
      List.getD_eq_getElem _ _ (show a + i < data.length by omega)] at hD
    rw [hD]
    simp only [List.getElem_map, List.getElem_range]
    exact (List.getD_eq_getElem _ _ (by omega)).symm

theorem beU32_be4 (L : Nat) (h : L < 4294967296) : beU32 (be4 L) = L := by
  simp only [beU32, be4, List.foldl_cons, List.foldl_nil]
  omega

theorem intFromBytesBE_append_singleton (l : List Nat) (b : Nat) :
    intFromBytesBE (l ++ [b]) = intFromBytesBE l * 256 + b := by
  simp [intFromBytesBE, List.foldl_append]

theorem intFromBytesBE_minBE (x : Nat) : intFromBytesBE (minBE x) = x := by
  induction x using Nat.strong_induction_on with
  | _ x ih =>
    by_cases h : x = 0
    · simp [h, minBE, intFromBytesBE]
    · rw [minBE, if_neg h, intFromBytesBE_append_singleton,
        ih (x / 256) (Nat.div_lt_self (by omega) (by norm_num))]
      omega

/-! ## Helper lemmas about `read_ssh_string` -/

theorem read_ssh_string_ok (data : List Nat) (off : Nat)
    (h1 : off + 4 ≤ data.length)
    (h2 : off + 4 + beU32 (sliceList data off (off + 4)) ≤ data.length) :
    read_ssh_string data off =
      .ok (sliceList data (off + 4) (off + 4 + beU32 (sliceList data off (off + 4))),
        off + 4 + beU32 (sliceList data off (off + 4))) := by
  simp only [read_ssh_string]
  rw [if_neg (by omega), if_neg (by omega)]

theorem read_ssh_string_ok_elim (data : List Nat) (off : Nat) (s : List Nat)
    (off' : Nat) (h : read_ssh_string data off = .ok (s, off')) :
    off + 4 ≤ data.length ∧
    off + 4 + beU32 (sliceList data off (off + 4)) ≤ data.length ∧
    s = sliceList data (off + 4) (off + 4 + beU32 (sliceList data off (off + 4))) ∧
    off' = off + 4 + beU32 (sliceList data off (off + 4)) := by
  simp only [read_ssh_string] at h
  split at h
  · simp at h
  · split at h
    · simp at h
    · rename_i hc1 hc2
      simp only [Except.ok.injEq, Prod.mk.injEq] at h
      exact ⟨by omega, by omega, h.1.symm, h.2.symm⟩

theorem read_ssh_string_append (data extra : List Nat) (off : Nat) (s : List Nat)
    (off' : Nat) (h : read_ssh_string data off = .ok (s, off')) :
    read_ssh_string (data ++ extra) off = .ok (s, off') := by
  obtain ⟨h1, h2, hs, ho⟩ := read_ssh_string_ok_elim data off s off' h
  have hel : (data ++ extra).length = data.length + extra.length := by simp
  have key : beU32 (sliceList (data ++ extra) off (off + 4)) =
      beU32 (sliceList data off (off + 4)) := by
    rw [sliceList_append_left data extra off (off + 4) (by omega)]
  have r := read_ssh_string_ok (data ++ extra) off (by omega) (by rw [key]; omega)
  rw [key] at r
  rw [sliceList_append_left data extra (off + 4)
    (off + 4 + beU32 (sliceList data off (off + 4))) (by omega)] at r
  rw [r, hs, ho]

theorem read_field (data pre bs rest : List Nat)
    (hdata : data = pre ++ (be4 bs.length ++ (bs ++ rest)))
    (hlen : bs.length < 4294967296) :
    read_ssh_string data pre.length = .ok (bs, pre.length + 4 + bs.length) := by
  have hlen4 : (be4 bs.length).length = 4 := by simp [be4]
  have hdl : data.length = pre.length + 4 + bs.length + rest.length := by
    rw [hdata]
    simp [be4]
    omega
  have hslice1 : sliceList data pre.length (pre.length + 4) = be4 bs.length := by
    rw [hdata]
    unfold sliceList
    rw [List.drop_left]
    have h4 : pre.length + 4 - pre.length = 4 := by omega
    rw [h4, List.take_left' hlen4]
  have hL : beU32 (sliceList data pre.length (pre.length + 4)) = bs.length := by
    rw [hslice1]
    exact beU32_be4 _ hlen
  have hslice2 : sliceList data (pre.length + 4) (pre.length + 4 + bs.length) = bs := by
    rw [hdata]
    unfold sliceList
    have hpl : (pre ++ be4 bs.length).length = pre.length + 4 := by
      simp [hlen4]
    rw [show pre ++ (be4 bs.length ++ (bs ++ rest)) =
      (pre ++ be4 bs.length) ++ (bs ++ rest) from by simp [List.append_assoc]]
    rw [List.drop_left' hpl]
    have hb : pre.length + 4 + bs.length - (pre.length + 4) = bs.length := by omega
    rw [hb, List.take_left' rfl]
  have h1 : pre.length + 4 ≤ data.length := by omega
  have h2 : pre.length + 4 + beU32 (sliceList data pre.length (pre.length + 4)) ≤
      data.length := by
    rw [hL]; omega
  have r := read_ssh_string_ok data pre.length h1 h2
  rw [hL] at r
  rw [r, hslice2]

/-! ## Helper lemmas about `decodeBlob` -/

theorem decodeBlob_of_reads (blob ktb eb nb : List Nat) (off off2 off3 : Nat)
    (h1 : read_ssh_string blob 0 = .ok (ktb, off))
    (hu : utf8Decode ktb = some sshRsaStr)
    (h2 : read_ssh_string blob off = .ok (eb, off2))
    (h3 : read_ssh_string blob off2 = .ok (nb, off3)) :
    decodeBlob blob = .ok (intFromBytesBE eb, intFromBytesBE nb) := by
  simp only [decodeBlob, h1, hu, h2, h3]
  simp

theorem decodeBlob_ok_elim (blob : List Nat) (e n : Nat)
    (h : decodeBlob blob = .ok (e, n)) :
    ∃ ktb off eb off2 nb off3,
      read_ssh_string blob 0 = .ok (ktb, off) ∧
      utf8Decode ktb = some sshRsaStr ∧
      read_ssh_string blob off = .ok (eb, off2) ∧
      read_ssh_string blob off2 = .ok (nb, off3) ∧
      e = intFromBytesBE eb ∧ n = intFromBytesBE nb := by
  unfold decodeBlob at h
  cases h1 : read_ssh_string blob 0 with
  | error err => rw [h1] at h; simp at h
  | ok p =>
    obtain ⟨ktb, off⟩ := p
    rw [h1] at h
    simp only at h
    cases hu : utf8Decode ktb with
    | none => rw [hu] at h; simp at h
    | some str =>
      rw [hu] at h
      simp only at h
      by_cases hstr : str = sshRsaStr
      · rw [if_neg (by simp [hstr])] at h
        cases h2 : read_ssh_string blob off with
        | error err => rw [h2] at h; simp at h
        | ok q =>
          obtain ⟨eb, off2⟩ := q
          rw [h2] at h
          simp only at h
          cases h3 : read_ssh_string blob off2 with
          | error err => rw [h3] at h; simp at h
          | ok r =>
            obtain ⟨nb, off3⟩ := r
            rw [h3] at h
            simp only [Except.ok.injEq, Prod.mk.injEq] at h
            exact ⟨ktb, off, eb, off2, nb, off3, rfl, by rw [hu, hstr], h2, h3,
              h.1.symm, h.2.symm⟩
      · rw [if_pos hstr] at h
        simp at h

/-! ## Claim theorems -/

/-- C2: for every byte buffer and offset, `read_ssh_string` fails with a
truncation error naming the offset when `offset + 4 > len(buffer)`;
otherwise, letting `L` be the 4-byte big-endian unsigned integer at
`offset`, it fails with a truncation error naming `L` and `offset + 4`
when `offset + 4 + L > len(buffer)`; otherwise it returns the slice
`buffer[offset+4 : offset+4+L]` (characterised byte by byte) together
with the new offset `offset + 4 + L`. -/
theorem read_ssh_string_spec (data : List Nat) (offset : Nat) :
    (offset + 4 > data.length →
      read_ssh_string data offset = .error (.truncLength offset)) ∧
    (offset + 4 ≤ data.length →
      ∀ L, L = data.getD offset 0 * 16777216 + data.getD (offset + 1) 0 * 65536 +
          data.getD (offset + 2) 0 * 256 + data.getD (offset + 3) 0 →
        (offset + 4 + L > data.length →
          read_ssh_string data offset = .error (.truncPayload L (offset + 4))) ∧
        (offset + 4 + L ≤ data.length →
          read_ssh_string data offset =
            .ok ((List.range L).map (fun i => data.getD (offset + 4 + i) 0),
              offset + 4 + L))) := by
  constructor
  · intro hgt
    simp only [read_ssh_string]
    rw [if_pos hgt]
  · intro hle L hLdef
    have hbe : beU32 (sliceList data offset (offset + 4)) = L := by
      rw [sliceList_eq_map data offset (offset + 4) (by omega)]
      have h4 : offset + 4 - offset = 4 := by omega
      have hr4 : List.range 4 = [0, 1, 2, 3] := by decide
      rw [h4, hr4]
      simp only [List.map_cons, List.map_nil, beU32, List.foldl_cons, List.foldl_nil,
        Nat.add_zero]
      omega
    constructor
    · intro hgt
      simp only [read_ssh_string]
      rw [if_neg (by omega), hbe, if_pos hgt]
    · intro hle2
      have r := read_ssh_string_ok data offset (by omega) (by rw [hbe]; omega)
      rw [hbe] at r
      rw [r, sliceList_eq_map data (offset + 4) (offset + 4 + L) (by omega)]
      have hsub : offset + 4 + L - (offset + 4) = L := by omega
      rw [hsub]

/-- C2 witness: on the concrete buffer `[0,0,0,2,7,8,9]` at offset 0 the
length prefix is 2 and the payload is `[7, 8]` with new offset 6. -/
theorem read_ssh_string_spec_witness :
    read_ssh_string [0, 0, 0, 2, 7, 8, 9] 0 = .ok ([7, 8], 6) := by
  have h := ((read_ssh_string_spec [0, 0, 0, 2, 7, 8, 9] 0).2 (by decide) 2
    (by decide)).2 (by decide)
  simpa using h

/-- C10: whenever `read_ssh_string` succeeds on a buffer at some offset,
the returned new offset satisfies `offset + 4 ≤ new_offset ≤ len(buffer)`:
each successful field read strictly advances the offset and never moves
past the end of the buffer. -/
theorem read_ssh_string_offset_invariant (data : List Nat) (off : Nat)
    (s : List Nat) (off' : Nat)
    (h : read_ssh_string data off = .ok (s, off')) :
    off + 4 ≤ off' ∧ off' ≤ data.length := by
  obtain ⟨h1, h2, -, h4⟩ := read_ssh_string_ok_elim data off s off' h
  omega

/-- C10 witness: on `[0,0,0,1,9]` at offset 0, the read succeeds with new
offset 5, and indeed `0 + 4 ≤ 5 ≤ 5`. -/
theorem read_ssh_string_offset_invariant_witness :
    0 + 4 ≤ 5 ∧ 5 ≤ ([0, 0, 0, 1, 9] : List Nat).length :=
  read_ssh_string_offset_invariant [0, 0, 0, 1, 9] 0 [9] 5 (by decide)

/-- C1: for every pair `(e, n)` whose minimal big-endian encodings fit a
4-byte length prefix (the only pairs for which the blob of the claim is
constructible), decoding the built blob returns exactly `(e, n)`. -/
theorem blob_roundtrip (e n : Nat)
    (he : (minBE e).length < 4294967296)
    (hn : (minBE n).length < 4294967296) :
    decodeBlob (buildBlob e n) = .ok (e, n) := by
  have hssh : sshRsaBytes.length < 4294967296 := by decide
  have h1 : read_ssh_string (buildBlob e n) 0 = .ok (sshRsaBytes, 11) := by
    have h := read_field (buildBlob e n) [] sshRsaBytes
      (be4 (minBE e).length ++ (minBE e ++ (be4 (minBE n).length ++ minBE n)))
      (by simp [buildBlob, List.append_assoc]) hssh
    simpa [sshRsaBytes] using h
  have h2 : read_ssh_string (buildBlob e n) 11 = .ok (minBE e, 15 + (minBE e).length) := by
    have h := read_field (buildBlob e n) (be4 sshRsaBytes.length ++ sshRsaBytes)
      (minBE e) (be4 (minBE n).length ++ minBE n)
      (by simp [buildBlob, List.append_assoc]) he
    have hp : (be4 sshRsaBytes.length ++ sshRsaBytes).length = 11 := by decide
    rw [hp] at h
    have ho : 11 + 4 + (minBE e).length = 15 + (minBE e).length := by omega
    rw [ho] at h
    exact h
  have h3 : read_ssh_string (buildBlob e n) (15 + (minBE e).length) =
      .ok (minBE n, 15 + (minBE e).length + 4 + (minBE n).length) := by
    have h := read_field (buildBlob e n)
      (be4 sshRsaBytes.length ++ sshRsaBytes ++ be4 (minBE e).length ++ minBE e)
      (minBE n) []
      (by simp [buildBlob, List.append_assoc]) hn
    have hp : (be4 sshRsaBytes.length ++ sshRsaBytes ++ be4 (minBE e).length ++
        minBE e).length = 15 + (minBE e).length := by
      simp [be4, sshRsaBytes]
      omega
    rw [hp] at h
    exact h
  rw [decodeBlob_of_reads (buildBlob e n) sshRsaBytes (minBE e) (minBE n) 11
    (15 + (minBE e).length) (15 + (minBE e).length + 4 + (minBE n).length)
    h1 (by decide) h2 h3]
  rw [intFromBytesBE_minBE, intFromBytesBE_minBE]

/-- C1 witness: the round trip at the concrete pair `(65537, 66051)`. -/
theorem blob_roundtrip_witness :
    decodeBlob (buildBlob 65537 66051) = .ok (65537, 66051) :=
  blob_roundtrip 65537 66051
    (by have : minBE 65537 = [1, 0, 1] := by simp [minBE]
        simp [this])
    (by have : minBE 66051 = [1, 2, 3] := by simp [minBE]
        simp [this])

/-- C3: decoding the concrete blob
`b'\x00\x00\x00\x07ssh-rsa\x00\x00\x00\x03\x01\x00\x01\x00\x00\x00\x03\x01\x02\x03'`
succeeds with `e = 65537` and `n = 66051`, both at the blob level and via
`extract_rsa_components_from_string` on a line whose second token is the
blob's base64 encoding. -/
theorem concrete_blob_decode :
    decodeBlob [0, 0, 0, 7, 115, 115, 104, 45, 114, 115, 97,
        0, 0, 0, 3, 1, 0, 1, 0, 0, 0, 3, 1, 2, 3] = .ok (65537, 66051) ∧
    extract_rsa_components_from_string
        ("ssh-rsa AAAAB3NzaC1yc2EAAAADAQABAAAAAwECAw==".toList) =
      .ok (65537, 66051) := by
  decide

/-- C4: if the blob decode succeeds on `blob`, it succeeds on
`blob ++ extra` with the same pair: trailing bytes after the modulus
field are silently ignored. -/
theorem decodeBlob_ignores_trailing (blob extra : List Nat) (e n : Nat)
    (h : decodeBlob blob = .ok (e, n)) :
    decodeBlob (blob ++ extra) = .ok (e, n) := by
  obtain ⟨ktb, off, eb, off2, nb, off3, h1, hu, h2, h3, he, hn⟩ :=
    decodeBlob_ok_elim blob e n h
  rw [he, hn]
  exact decodeBlob_of_reads (blob ++ extra) ktb eb nb off off2 off3
    (read_ssh_string_append blob extra 0 ktb off h1) hu
    (read_ssh_string_append blob extra off eb off2 h2)
    (read_ssh_string_append blob extra off2 nb off3 h3)

/-- C4 witness: appending `[9, 9, 9]` to the concrete valid blob leaves
the decoded pair unchanged. -/
theorem decodeBlob_ignores_trailing_witness :
    decodeBlob ([0, 0, 0, 7, 115, 115, 104, 45, 114, 115, 97,
        0, 0, 0, 3, 1, 0, 1, 0, 0, 0, 3, 1, 2, 3] ++ [9, 9, 9]) =
      .ok (65537, 66051) :=
  decodeBlob_ignores_trailing
    [0, 0, 0, 7, 115, 115, 104, 45, 114, 115, 97,
      0, 0, 0, 3, 1, 0, 1, 0, 0, 0, 3, 1, 2, 3] [9, 9, 9] 65537 66051 (by decide)

/-- C5 (counterexample): the input line `"ssh-rsa AAA!A"` has a second
token that is not well-formed base64 (it contains `'!'`, outside the
base64 alphabet), yet `extract_rsa_components_from_string` does not fail
with the invalid-base64 error: `base64.b64decode` silently discards the
ASCII non-alphabet `'!'`, decodes `"AAAA"` to three zero bytes, and the
failure is instead the truncation error at offset 0 of the blob stage. -/
theorem extract_invalid_b64_cex :
    extract_rsa_components_from_string ("ssh-rsa AAA!A".toList) =
      .error (.truncLength 0) ∧
    isBase64Err (extract_rsa_components_from_string ("ssh-rsa AAA!A".toList)) =
      false := by
  decide

/-- C5 (amended): for every input line whose second whitespace-separated
token fails Python's base64 decode — either the token holds a non-ASCII
character (the only-ASCII `ValueError`), or, after the ASCII characters
outside the base64 alphabet are discarded, the remaining data characters
have malformed padding (`binascii.Error`) —
`extract_rsa_components_from_string` fails with that propagated error;
ASCII characters outside the alphabet alone are not an error; in
particular the line `"ssh-rsa !!!notbase64!!!"` produces the
malformed-padding error. -/
theorem extract_invalid_b64 (s : List Char) :
    (∀ t0 t1 rest k, pySplit (pyStrip s) = t0 :: t1 :: rest →
      t0 = sshRsaStr → b64decode t1 = .error k →
      extract_rsa_components_from_string s = .error (.base64Error k)) ∧
    extract_rsa_components_from_string ("ssh-rsa !!!notbase64!!!".toList) =
      .error (.base64Error .oddData) := by
  refine ⟨?_, by decide⟩
  intro t0 t1 rest k hp h0 hb
  simp only [extract_rsa_components_from_string, hp]
  rw [if_neg (by simp)]
  simp only [List.getD_cons_zero, List.getD_cons_succ, h0]
  rw [if_neg (by simp), hb]

/-- C5 witness for the amended claim: `"ssh-rsa notbase64"` (nine data
characters, 1 more than a multiple of 4) yields the malformed-padding
error, and a token containing the non-ASCII `'Ā'` (U+0100) yields the
only-ASCII error. -/
theorem extract_invalid_b64_witness :
    extract_rsa_components_from_string ("ssh-rsa notbase64".toList) =
      .error (.base64Error .oddData) ∧
    extract_rsa_components_from_string ("ssh-rsa A".toList ++ [Char.ofNat 256]) =
      .error (.base64Error .nonAscii) :=
  ⟨(extract_invalid_b64 ("ssh-rsa notbase64".toList)).1 sshRsaStr
      ("notbase64".toList) [] .oddData (by decide) rfl (by decide),
    (extract_invalid_b64 ("ssh-rsa A".toList ++ [Char.ofNat 256])).1 sshRsaStr
      ('A' :: [Char.ofNat 256]) [] .nonAscii (by decide) rfl (by decide)⟩

/-- C6: the envelope stage of `extract_rsa_components_from_string` strips
surrounding whitespace and splits on runs of whitespace; with fewer than
2 tokens it fails with the malformed-key-line error, and with a first
token differing (case-sensitively) from `"ssh-rsa"` it fails with the
unsupported-key-type error; in particular `"dsa-key AAAA"` produces the
unsupported-key-type error. -/
theorem extract_envelope_errors (s : List Char) :
    ((pySplit (pyStrip s)).length < 2 →
      extract_rsa_components_from_string s = .error .malformedKeyLine) ∧
    (∀ t0 t1 rest, pySplit (pyStrip s) = t0 :: t1 :: rest → t0 ≠ sshRsaStr →
      extract_rsa_components_from_string s = .error (.unsupportedKeyType t0)) ∧
    extract_rsa_components_from_string ("dsa-key AAAA".toList) =
      .error (.unsupportedKeyType ("dsa-key".toList)) := by
  refine ⟨?_, ?_, by decide⟩
  · intro h
    simp only [extract_rsa_components_from_string]
    rw [if_pos h]
  · intro t0 t1 rest hp hne
    simp only [extract_rsa_components_from_string, hp]
    rw [if_neg (by simp)]
    simp only [List.getD_cons_zero]
    rw [if_pos hne]

/-- C6 witness: a one-token line gives the malformed-key-line error and a
two-token line with tag `"rsa"` gives the unsupported-key-type error. -/
theorem extract_envelope_errors_witness :
    extract_rsa_components_from_string ("x".toList) = .error .malformedKeyLine ∧
    extract_rsa_components_from_string ("rsa b".toList) =
      .error (.unsupportedKeyType ['r', 's', 'a']) :=
  ⟨(extract_envelope_errors ("x".toList)).1 (by decide),
    (extract_envelope_errors ("rsa b".toList)).2.1 ['r', 's', 'a'] ['b'] []
      (by decide) (by decide)⟩

/-- C7 (counterexample): on the blob `[0,0,0,1,0xFF]` the first
length-prefixed field is readable and its payload `[0xFF]` differs from
`"ssh-rsa"`, but the decode does not fail with the blob-type-mismatch
error: `bytes.decode()` raises `UnicodeDecodeError` first, because the
payload is not valid UTF-8. -/
theorem decodeBlob_type_mismatch_cex :
    decodeBlob [0, 0, 0, 1, 255] = .error .unicodeDecodeError ∧
    isTypeMismatch (decodeBlob [0, 0, 0, 1, 255]) = false := by
  decide

/-- C7 (amended): for every blob whose first length-prefixed field is
readable, if its payload decodes (UTF-8) to text different from
`"ssh-rsa"` the decode fails with the blob-type-mismatch error reporting
the decoded value; if the payload is not decodable as text the decode
fails with the Unicode decode error instead; in neither case is an
`(e, n)` pair returned. -/
theorem decodeBlob_type_check (blob p : List Nat) (off : Nat)
    (h : read_ssh_string blob 0 = .ok (p, off)) :
    (utf8Decode p = none → decodeBlob blob = .error .unicodeDecodeError) ∧
    (∀ s, utf8Decode p = some s → s ≠ sshRsaStr →
      decodeBlob blob = .error (.blobTypeMismatch s)) := by
  constructor
  · intro hu
    simp only [decodeBlob, h, hu]
  · intro s hu hne
    simp only [decodeBlob, h, hu]
    rw [if_pos hne]

/-- C7 witness for the amended claim: the non-UTF-8 payload `[0xFF]`
gives the Unicode decode error, and the decodable payload `"abc"` gives
the blob-type-mismatch error reporting `"abc"`. -/
theorem decodeBlob_type_check_witness :
    decodeBlob [0, 0, 0, 1, 255] = .error .unicodeDecodeError ∧
    decodeBlob [0, 0, 0, 3, 97, 98, 99] =
      .error (.blobTypeMismatch ['a', 'b', 'c']) :=
  ⟨(decodeBlob_type_check [0, 0, 0, 1, 255] [255] 5 (by decide)).1 (by decide),
    (decodeBlob_type_check [0, 0, 0, 3, 97, 98, 99] [97, 98, 99] 7
      (by decide)).2 ['a', 'b', 'c'] (by decide) (by decide)⟩

/-- C8: a blob whose exponent field is empty (declared length 0) does not
fail on the conversion step: the decode returns `e = 0`; and the
conversion of the empty byte string to an unsigned big-endian integer is
`0`. -/
theorem decodeBlob_empty_exponent (blob : List Nat) (off1 off2 off3 : Nat)
    (nb : List Nat)
    (h1 : read_ssh_string blob 0 = .ok (sshRsaBytes, off1))
    (h2 : read_ssh_string blob off1 = .ok ([], off2))
    (h3 : read_ssh_string blob off2 = .ok (nb, off3)) :
    decodeBlob blob = .ok (0, intFromBytesBE nb) ∧ intFromBytesBE [] = 0 := by
  refine ⟨?_, rfl⟩
  exact decodeBlob_of_reads blob sshRsaBytes [] nb off1 off2 off3 h1 (by decide) h2 h3

/-- C8 witness: a concrete blob with an empty exponent field decodes to
`e = 0` (with `n = 5`). -/
theorem decodeBlob_empty_exponent_witness :
    decodeBlob ([0, 0, 0, 7] ++ sshRsaBytes ++ [0, 0, 0, 0] ++ [0, 0, 0, 1, 5]) =
      .ok (0, 5) ∧ intFromBytesBE [] = 0 :=
  decodeBlob_empty_exponent
    ([0, 0, 0, 7] ++ sshRsaBytes ++ [0, 0, 0, 0] ++ [0, 0, 0, 1, 5])
    11 15 20 [5] (by decide) (by decide) (by decide)

/-- C9: `extract_rsa_components_manual`, applied to the text read from a
file, returns the same pair or fails with the same error as
`extract_rsa_components_from_string` applied to that text directly: the
two entry points implement identical parsing logic. -/
theorem extract_manual_eq_from_string (t : List Char) :
    extract_rsa_components_manual t = extract_rsa_components_from_string t := rfl

/-- C9 witness: the two entry points agree on a concrete text. -/
theorem extract_manual_eq_from_string_witness :
    extract_rsa_components_manual ("dsa-key AAAA".toList) =
      extract_rsa_components_from_string ("dsa-key AAAA".toList) :=
  extract_manual_eq_from_string ("dsa-key AAAA".toList)
